import Mathlib

/-!
Shallow embedding of the character-controller core of the `playground`
repository (src/player_movement.rs, src/ball.rs, src/cube.rs), with the
physics-engine and input-layer state passed explicitly.  Vectors are modelled
over the reals, orientations as YXZ Euler angles (the decomposition the source
itself uses in `rotate_camera`), and timestamps as integer seconds.
-/

namespace Playground

/-- A 3-D vector over the reals, modelling glam `Vec3`. -/
structure Vec3 where
  x : ℝ
  y : ℝ
  z : ℝ

def Vec3.add (a b : Vec3) : Vec3 := ⟨a.x + b.x, a.y + b.y, a.z + b.z⟩

def Vec3.neg (a : Vec3) : Vec3 := ⟨-a.x, -a.y, -a.z⟩

def Vec3.smul (r : ℝ) (a : Vec3) : Vec3 := ⟨r * a.x, r * a.y, r * a.z⟩

def Vec3.dot (a b : Vec3) : ℝ := a.x * b.x + a.y * b.y + a.z * b.z

/-- glam `Vec3::length`. -/
noncomputable def Vec3.norm (a : Vec3) : ℝ := Real.sqrt (a.dot a)

/-- glam `Vec3::normalize`: the vector scaled by the reciprocal of its length. -/
noncomputable def Vec3.normalize (a : Vec3) : Vec3 := Vec3.smul (1 / a.norm) a

def Vec3.zero : Vec3 := ⟨0, 0, 0⟩

/-- avian `Vector::Y`, the world-up axis. -/
def Vec3.yAxis : Vec3 := ⟨0, 1, 0⟩

/-- glam `Vec3::angle_between`: arccos of the normalized dot product.
`Real.arccos` clamps its argument to `[-1, 1]`, matching glam. -/
noncomputable def Vec3.angleBetween (a b : Vec3) : ℝ :=
  Real.arccos (a.dot b / (a.norm * b.norm))

/-- An orientation expressed in the YXZ Euler decomposition used by
`rotate_camera` (`EulerRot::YXZ`): yaw about Y outermost, pitch about X,
roll about Z innermost. -/
structure EulerAngles where
  yaw : ℝ
  pitch : ℝ
  roll : ℝ

/-- Rotation about the Z axis (glam `Mat3::from_rotation_z`). -/
noncomputable def rotZ (t : ℝ) (v : Vec3) : Vec3 :=
  ⟨Real.cos t * v.x - Real.sin t * v.y, Real.sin t * v.x + Real.cos t * v.y, v.z⟩

/-- Rotation about the X axis (glam `Mat3::from_rotation_x`). -/
noncomputable def rotX (t : ℝ) (v : Vec3) : Vec3 :=
  ⟨v.x, Real.cos t * v.y - Real.sin t * v.z, Real.sin t * v.y + Real.cos t * v.z⟩

/-- Rotation about the Y axis (glam `Mat3::from_rotation_y`). -/
noncomputable def rotY (t : ℝ) (v : Vec3) : Vec3 :=
  ⟨Real.cos t * v.x + Real.sin t * v.z, v.y, -Real.sin t * v.x + Real.cos t * v.z⟩

/-- Application of `Quat::from_euler(EulerRot::YXZ, yaw, pitch, roll)`
to a vector. -/
noncomputable def rotApply (e : EulerAngles) (v : Vec3) : Vec3 :=
  rotY e.yaw (rotX e.pitch (rotZ e.roll v))

/-- A bevy `Transform` restricted to the data the core uses:
translation and orientation. -/
structure Transform3 where
  translation : Vec3
  rotation : EulerAngles

/-- bevy `Transform::forward()`: the rotated `-Z` axis. -/
noncomputable def Transform3.forward (t : Transform3) : Vec3 :=
  rotApply t.rotation ⟨0, 0, -1⟩

/-- bevy `Transform::right()`: the rotated `X` axis. -/
noncomputable def Transform3.right (t : Transform3) : Vec3 :=
  rotApply t.rotation ⟨1, 0, 0⟩

/-- The identity transform at the origin. -/
def identityTransform : Transform3 := ⟨Vec3.zero, ⟨0, 0, 0⟩⟩

/-- One entry of avian `ShapeHits`: the data `update_grounded` reads from a
shape-cast hit, the contact normal on the cast shape (`normal2`). -/
structure ShapeHitData where
  normal2 : Vec3

/-- The per-hit test inside `update_grounded` (src/player_movement.rs:157-163):
when a `MaxSlopeAngle` component is present, the absolute angle between the
world-rotated negated hit normal and the world-up axis must not exceed it;
when absent, any hit passes. -/
def slopeOk (rotation : EulerAngles) (max_slope_angle : Option ℝ)
    (hit : ShapeHitData) : Prop :=
  match max_slope_angle with
  | some angle => |Vec3.angleBetween (rotApply rotation hit.normal2.neg) Vec3.yAxis| ≤ angle
  | none => True

/-- `update_grounded` (src/player_movement.rs:150-171): the `Grounded` marker
is present after the system runs iff some hit in this tick's `ShapeHits`
passes the slope test.  The previous tick's grounded state is passed in
(`prev_grounded`) to model the component the system overwrites; the source
never reads it. -/
def update_grounded (rotation : EulerAngles) (max_slope_angle : Option ℝ)
    (hits : List ShapeHitData) (_prev_grounded : Bool) : Prop :=
  ∃ hit ∈ hits, slopeOk rotation max_slope_angle hit

/-- C1: after `update_grounded`, `Grounded` is present iff some hit's normal,
rotated into world space, makes an angle of at most the configured
max-slope-angle with world-up (any hit counts when no `MaxSlopeAngle` is
configured); the empty hit list yields airborne; and the result is independent
of the previous grounded value. -/
theorem update_grounded_characterization :
    ∀ (rotation : EulerAngles) (msa : Option ℝ) (hits : List ShapeHitData)
      (prevA prevB : Bool),
      (update_grounded rotation msa hits prevA ↔
        ∃ hit ∈ hits,
          match msa with
          | some angle =>
              |Vec3.angleBetween (rotApply rotation hit.normal2.neg) Vec3.yAxis| ≤ angle
          | none => True) ∧
      ¬ update_grounded rotation msa [] prevA ∧
      (update_grounded rotation msa hits prevA ↔
        update_grounded rotation msa hits prevB) := by
  intro rotation msa hits prevA prevB
  refine ⟨Iff.rfl, ?_, Iff.rfl⟩
  rintro ⟨hit, hmem, _⟩
  exact (List.not_mem_nil hit) hmem

/-- `handle_player_move` (src/player_movement.rs:173-201): project the
transform's forward and right vectors onto the horizontal plane, renormalize,
combine them with the move intent (`movement.1` = x = strafe,
`movement.2` = y = forward), and accumulate the x and z velocity components
scaled by acceleration and the tick's elapsed time. -/
noncomputable def handle_player_move (movement : ℝ × ℝ)
    (acceleration time_delta : ℝ) (transform : Transform3)
    (velocity : Vec3) : Vec3 :=
  let forward0 := transform.forward
  let right0 := transform.right
  let forward := Vec3.normalize ⟨forward0.x, 0, forward0.z⟩
  let right := Vec3.normalize ⟨right0.x, 0, right0.z⟩
  let relative_forward := Vec3.smul movement.2 forward
  let relative_right := Vec3.smul movement.1 right
  let relative_movement := relative_forward.add relative_right
  ⟨velocity.x + relative_movement.x * acceleration * time_delta,
   velocity.y,
   velocity.z + relative_movement.z * acceleration * time_delta⟩

/-- C2: `handle_player_move` adds exactly
`(intent.y * forward_projected + intent.x * right_projected) * acceleration * dt`
to the x and z velocity components (forward/right projected to the horizontal
plane and renormalized) and leaves y unchanged; with intent `(0, 1)`,
acceleration `100`, `dt = 0.1` and identity orientation the velocity delta is
exactly `(0, 0, -10)`. -/
theorem handle_player_move_velocity_delta :
    (∀ (movement : ℝ × ℝ) (acceleration time_delta : ℝ)
       (transform : Transform3) (velocity : Vec3),
      handle_player_move movement acceleration time_delta transform velocity =
        ⟨velocity.x +
           (Vec3.smul (acceleration * time_delta)
             ((Vec3.smul movement.2
                 (Vec3.normalize ⟨transform.forward.x, 0, transform.forward.z⟩)).add
              (Vec3.smul movement.1
                 (Vec3.normalize ⟨transform.right.x, 0, transform.right.z⟩)))).x,
         velocity.y,
         velocity.z +
           (Vec3.smul (acceleration * time_delta)
             ((Vec3.smul movement.2
                 (Vec3.normalize ⟨transform.forward.x, 0, transform.forward.z⟩)).add
              (Vec3.smul movement.1
                 (Vec3.normalize ⟨transform.right.x, 0, transform.right.z⟩)))).z⟩) ∧
    (∀ velocity : Vec3,
      handle_player_move (0, 1) 100 (1 / 10) identityTransform velocity =
        ⟨velocity.x + 0, velocity.y, velocity.z + (-10)⟩) := by
  constructor
  · intro movement acceleration time_delta transform velocity
    simp only [handle_player_move, Vec3.smul, Vec3.add, Vec3.mk.injEq]
    refine ⟨by ring, trivial, by ring⟩
  · intro velocity
    have hfwd : identityTransform.forward = ⟨0, 0, -1⟩ := by
      simp [identityTransform, Transform3.forward, rotApply, rotY, rotX, rotZ]
    have hrgt : identityTransform.right = ⟨1, 0, 0⟩ := by
      simp [identityTransform, Transform3.right, rotApply, rotY, rotX, rotZ]
    simp only [handle_player_move, hfwd, hrgt, Vec3.normalize, Vec3.norm, Vec3.dot,
      Vec3.smul, Vec3.add, Vec3.mk.injEq]
    norm_num

/-- `handle_player_jump` (src/player_movement.rs:203-212): when the
`Grounded` marker is present, set the vertical velocity component to the
configured jump impulse; otherwise leave the velocity untouched. -/
def handle_player_jump (jump_impulse : ℝ) (velocity : Vec3)
    (is_grounded : Bool) : Vec3 :=
  if is_grounded then ⟨velocity.x, jump_impulse, velocity.z⟩ else velocity

/-- C3: on a jump trigger, `handle_player_jump` sets the vertical velocity
component to exactly the configured jump impulse when `Grounded` is present
(leaving x and z untouched), and leaves the entire velocity unchanged when it
is absent, for every prior velocity. -/
theorem handle_player_jump_grounded_gate :
    ∀ (jump_impulse : ℝ) (velocity : Vec3),
      handle_player_jump jump_impulse velocity true =
        ⟨velocity.x, jump_impulse, velocity.z⟩ ∧
      handle_player_jump jump_impulse velocity false = velocity := by
  intro j v
  exact ⟨rfl, rfl⟩

/-- `PITCH_LIMIT` (src/player_movement.rs:8): `FRAC_PI_2 - 0.01`. -/
noncomputable def PITCH_LIMIT : ℝ := Real.pi / 2 - 0.01

theorem PITCH_LIMIT_pos : 0 < PITCH_LIMIT := by
  have h := Real.pi_gt_three
  unfold PITCH_LIMIT
  linarith

/-- The accumulated mouse-motion delta read by `rotate_camera`. -/
structure MouseDelta where
  x : ℝ
  y : ℝ

/-- `rotate_camera` (src/player_movement.rs:223-244) acting on the YXZ Euler
decomposition of the avatar orientation (the source decomposes the quaternion
with `to_euler(EulerRot::YXZ)`, updates yaw and pitch, clamps pitch to
`±PITCH_LIMIT`, and recomposes with the same roll).  A zero delta skips the
update entirely. -/
noncomputable def rotate_camera (delta : MouseDelta) (rotation : EulerAngles) :
    EulerAngles :=
  if delta.x = 0 ∧ delta.y = 0 then rotation
  else
    let sensitivity_x : ℝ := 0.003
    let sensitivity_y : ℝ := 0.002
    let delta_yaw := -delta.x * sensitivity_x
    let delta_pitch := -delta.y * sensitivity_y
    ⟨rotation.yaw + delta_yaw,
     min PITCH_LIMIT (max (-PITCH_LIMIT) (rotation.pitch + delta_pitch)),
     rotation.roll⟩

theorem rotate_camera_step (d : MouseDelta) (e : EulerAngles)
    (hp : |e.pitch| ≤ PITCH_LIMIT) (hr : e.roll = 0) :
    |(rotate_camera d e).pitch| ≤ PITCH_LIMIT ∧ (rotate_camera d e).roll = 0 := by
  unfold rotate_camera
  by_cases h : d.x = 0 ∧ d.y = 0
  · rw [if_pos h]
    exact ⟨hp, hr⟩
  · rw [if_neg h]
    refine ⟨?_, hr⟩
    rw [abs_le]
    exact ⟨le_min (by linarith [PITCH_LIMIT_pos]) (le_max_left _ _), min_le_left _ _⟩

/-- C4: starting from any orientation with roll 0 and pitch within the clamp
range, any finite sequence of `rotate_camera` look updates keeps the pitch in
`[-(pi/2 - 0.01), pi/2 - 0.01]` and the roll at 0. -/
theorem rotate_camera_pitch_roll_invariant :
    ∀ (deltas : List MouseDelta) (e : EulerAngles),
      |e.pitch| ≤ PITCH_LIMIT → e.roll = 0 →
      |(deltas.foldl (fun r d => rotate_camera d r) e).pitch| ≤ PITCH_LIMIT ∧
      (deltas.foldl (fun r d => rotate_camera d r) e).roll = 0 := by
  intro deltas
  induction deltas with
  | nil => intro e hp hr; exact ⟨hp, hr⟩
  | cons d ds ih =>
      intro e hp hr
      have h := rotate_camera_step d e hp hr
      exact ih (rotate_camera d e) h.1 h.2

/-- Witness for C4: one concrete look update from the identity orientation. -/
theorem rotate_camera_pitch_roll_invariant_witness :
    |(([⟨1, 2⟩] : List MouseDelta).foldl (fun r d => rotate_camera d r)
        ⟨0, 0, 0⟩).pitch| ≤ PITCH_LIMIT ∧
    (([⟨1, 2⟩] : List MouseDelta).foldl (fun r d => rotate_camera d r)
        ⟨0, 0, 0⟩).roll = 0 :=
  rotate_camera_pitch_roll_invariant [⟨1, 2⟩] ⟨0, 0, 0⟩
    (by rw [show (⟨0, 0, 0⟩ : EulerAngles).pitch = 0 from rfl, abs_zero]
        exact PITCH_LIMIT_pos.le)
    rfl

/-- `apply_movement_damping` (src/player_movement.rs:215-221): multiply the x
and z velocity components by the damping factor, leaving y untouched. -/
def apply_movement_damping (damping_factor : ℝ) (velocity : Vec3) : Vec3 :=
  ⟨velocity.x * damping_factor, velocity.y, velocity.z * damping_factor⟩

/-- The speed in the XZ plane. -/
noncomputable def horizontalSpeed (v : Vec3) : ℝ :=
  Real.sqrt (v.x * v.x + v.z * v.z)

/-- C6: for any damping factor in (0,1) and any velocity with a nonzero
horizontal component, one application of `apply_movement_damping` strictly
decreases the horizontal speed, keeps it nonnegative, and leaves the y
component untouched. -/
theorem apply_movement_damping_contracts :
    ∀ (d : ℝ) (v : Vec3), 0 < d → d < 1 → ¬(v.x = 0 ∧ v.z = 0) →
      horizontalSpeed (apply_movement_damping d v) < horizontalSpeed v ∧
      0 ≤ horizontalSpeed (apply_movement_damping d v) ∧
      (apply_movement_damping d v).y = v.y := by
  intro d v hd0 hd1 hnz
  have hs : 0 < v.x * v.x + v.z * v.z := by
    rcases not_and_or.1 hnz with h | h
    · exact add_pos_of_pos_of_nonneg (mul_self_pos.2 h) (mul_self_nonneg _)
    · exact add_pos_of_nonneg_of_pos (mul_self_nonneg _) (mul_self_pos.2 h)
  have key : horizontalSpeed (apply_movement_damping d v) = d * horizontalSpeed v := by
    unfold horizontalSpeed apply_movement_damping
    have h1 : v.x * d * (v.x * d) + v.z * d * (v.z * d) =
        d ^ 2 * (v.x * v.x + v.z * v.z) := by ring
    rw [h1, Real.sqrt_mul (sq_nonneg d), Real.sqrt_sq hd0.le]
  have hsp : 0 < horizontalSpeed v := Real.sqrt_pos.2 hs
  refine ⟨?_, ?_, rfl⟩
  · rw [key]
    calc d * horizontalSpeed v < 1 * horizontalSpeed v :=
          mul_lt_mul_of_pos_right hd1 hsp
      _ = horizontalSpeed v := one_mul _
  · rw [key]
    exact mul_nonneg hd0.le (Real.sqrt_nonneg _)

/-- Witness for C6: damping factor 1/2 on velocity (3, 5, 4). -/
theorem apply_movement_damping_contracts_witness :
    horizontalSpeed (apply_movement_damping (1 / 2) ⟨3, 5, 4⟩) <
      horizontalSpeed ⟨3, 5, 4⟩ ∧
    0 ≤ horizontalSpeed (apply_movement_damping (1 / 2) ⟨3, 5, 4⟩) ∧
    (apply_movement_damping (1 / 2) ⟨3, 5, 4⟩).y = (⟨3, 5, 4⟩ : Vec3).y :=
  apply_movement_damping_contracts (1 / 2) ⟨3, 5, 4⟩ (by norm_num) (by norm_num)
    (by norm_num)

/-- Modelled from the spec: the sprint-handling variant of the move handler is
missing from src (src/main.rs imports and binds a `PlayerSprint` action whose
definition and handler are absent from src/player_movement.rs).  Spec section
4.3: combine the intent-projected directions and "scale by acceleration
(doubled when sprint flag is set)"; the rest of the update is
`handle_player_move` as in src. -/
noncomputable def handle_player_move_sprint (movement : ℝ × ℝ) (sprint : Bool)
    (acceleration time_delta : ℝ) (transform : Transform3)
    (velocity : Vec3) : Vec3 :=
  handle_player_move movement (if sprint then 2 * acceleration else acceleration)
    time_delta transform velocity

/-- C8: with the sprint flag set, the velocity delta applied for a move intent
is exactly double the non-sprinting delta, for every intent, orientation,
acceleration and tick duration; the y component is untouched either way. -/
theorem sprint_doubles_acceleration :
    ∀ (movement : ℝ × ℝ) (acceleration time_delta : ℝ)
      (transform : Transform3) (velocity : Vec3),
      (handle_player_move_sprint movement true acceleration time_delta transform
          velocity).x - velocity.x =
        2 * ((handle_player_move_sprint movement false acceleration time_delta
          transform velocity).x - velocity.x) ∧
      (handle_player_move_sprint movement true acceleration time_delta transform
          velocity).z - velocity.z =
        2 * ((handle_player_move_sprint movement false acceleration time_delta
          transform velocity).z - velocity.z) ∧
      (handle_player_move_sprint movement true acceleration time_delta transform
          velocity).y = velocity.y ∧
      (handle_player_move_sprint movement false acceleration time_delta transform
          velocity).y = velocity.y := by
  intro movement acceleration time_delta transform velocity
  unfold handle_player_move_sprint handle_player_move
  simp only [if_true, Bool.false_eq_true, if_false, Vec3.smul, Vec3.add]
  refine ⟨by ring, by ring, by trivial, by trivial⟩

/-- The components of `BallBundle` (src/ball.rs:11-21) that the claims
constrain: the spawn transform, the initial linear velocity, and the
`DespawnAfter` timestamp (modelled in integer seconds). -/
structure BallBundle where
  transform : Transform3
  linear_velocity : Vec3
  despawn_after : ℤ

/-- `BallBundle::new` (src/ball.rs:23-46): despawn at `Utc::now() + 3s`;
initial velocity is the (re)normalized forward of the given transform scaled
by 100, then `0.1` added to its y component; the given transform is stored
unchanged. -/
noncomputable def BallBundle.new (now : ℤ) (transform : Transform3) :
    BallBundle :=
  let velocity := Vec3.smul 100 (Vec3.normalize transform.forward)
  { transform := transform
    linear_velocity := ⟨velocity.x, velocity.y + 0.1, velocity.z⟩
    despawn_after := now + 3 }

/-- `handle_player_action` (src/player_movement.rs:246-263): advance the
avatar transform's translation by its forward vector and spawn a
`BallBundle` with that transform. -/
noncomputable def handle_player_action (now : ℤ) (transform : Transform3) :
    BallBundle :=
  let forward := transform.forward
  BallBundle.new now
    { transform with translation := transform.translation.add forward }

/-- Counterexample to C5 as stated: at the identity avatar transform, the
spawned ball's translation is the avatar position plus the forward vector
exactly; no positive upward nudge is applied to the position (the upward bias
in the source goes to the velocity instead). -/
theorem handle_player_action_no_position_nudge :
    ¬ ∃ (offset nudge : ℝ), 0 < nudge ∧
      (handle_player_action 0 identityTransform).transform.translation =
        (identityTransform.translation.add
          (Vec3.smul offset identityTransform.forward)).add ⟨0, nudge, 0⟩ := by
  rintro ⟨offset, nudge, hn, heq⟩
  have hfwd : identityTransform.forward = ⟨0, 0, -1⟩ := by
    simp [identityTransform, Transform3.forward, rotApply, rotY, rotX, rotZ]
  have hy := congrArg Vec3.y heq
  simp only [handle_player_action, BallBundle.new] at hy
  rw [hfwd] at hy
  simp [identityTransform, Vec3.add, Vec3.smul, Vec3.zero] at hy
  linarith

/-- C5 amended: the spawned ball's position is the avatar position advanced by
exactly the forward vector (fixed offset 1, no vertical nudge on the
position); its initial velocity is the normalized forward scaled by the launch
speed 100 with an upward bias of 0.1 added to the y component; its expiry is
the spawn time plus the fixed 3-second lifetime. -/
theorem handle_player_action_spawn_spec :
    ∀ (now : ℤ) (t : Transform3),
      (handle_player_action now t).transform.translation =
        t.translation.add t.forward ∧
      (handle_player_action now t).linear_velocity =
        ⟨(Vec3.smul 100 (Vec3.normalize t.forward)).x,
         (Vec3.smul 100 (Vec3.normalize t.forward)).y + 0.1,
         (Vec3.smul 100 (Vec3.normalize t.forward)).z⟩ ∧
      (handle_player_action now t).despawn_after = now + 3 := by
  intro now t
  exact ⟨rfl, rfl, rfl⟩

/-- `handle_despawn_after` (src/ball.rs:48-54) restricted to a single entity:
the sweeper's query matches only entities carrying a `DespawnAfter` component
(`none` models an entity without one, which the query never yields); an entity
with one is despawned iff its timestamp is at or before the current time. -/
def handle_despawn_after (now : ℤ) (despawn_after : Option ℤ) : Bool :=
  match despawn_after with
  | some t => decide (t ≤ now)
  | none => false

/-- `CubeBundle` (src/cube.rs:7-16) carries no `DespawnAfter` component. -/
def cubeDespawnAfter : Option ℤ := none

/-- `CubeBundle` (src/cube.rs:7-16) carries no `LinearVelocity` component, so
the spawned cube starts with the engine default: zero velocity. -/
def cubeInitialVelocity : Vec3 := Vec3.zero

/-- C7: one sweeper run despawns exactly the bodies whose expiry is at or
before the current time; a ball spawned at `spawn` is despawned iff
`spawn + 3 ≤ now` (so runs before expiry leave it intact); the alt-fire cube,
which has no expiry, is never despawned at any time, and its initial velocity
is zero. -/
theorem handle_despawn_after_exactly_expired :
    ∀ (now spawn t : ℤ) (tr : Transform3),
      (handle_despawn_after now (some t) = true ↔ t ≤ now) ∧
      (handle_despawn_after now (some ((BallBundle.new spawn tr).despawn_after))
          = true ↔ spawn + 3 ≤ now) ∧
      handle_despawn_after now cubeDespawnAfter = false ∧
      cubeInitialVelocity = Vec3.zero := by
  intro now spawn t tr
  refine ⟨by simp [handle_despawn_after], ?_, rfl, rfl⟩
  simp [handle_despawn_after, BallBundle.new]

/-- C9: the failing input for the unguarded normalization in
`handle_player_move`: with the avatar looking straight down (pitch `-pi/2`,
roll 0), the horizontally projected forward vector is exactly the zero
vector and the normalization denominator (its length) is 0;
`handle_player_move` has no branch that skips this case — it normalizes the
projected vector unconditionally. -/
theorem handle_player_move_degenerate_forward :
    (⟨(Transform3.forward ⟨Vec3.zero, ⟨0, -(Real.pi / 2), 0⟩⟩).x, 0,
      (Transform3.forward ⟨Vec3.zero, ⟨0, -(Real.pi / 2), 0⟩⟩).z⟩ : Vec3) =
      Vec3.zero ∧
    Vec3.norm ⟨(Transform3.forward ⟨Vec3.zero, ⟨0, -(Real.pi / 2), 0⟩⟩).x, 0,
      (Transform3.forward ⟨Vec3.zero, ⟨0, -(Real.pi / 2), 0⟩⟩).z⟩ = 0 := by
  have hf : Transform3.forward ⟨Vec3.zero, ⟨0, -(Real.pi / 2), 0⟩⟩ =
      ⟨0, -1, 0⟩ := by
    simp [Transform3.forward, rotApply, rotY, rotX, rotZ, Real.cos_pi_div_two,
      Real.sin_pi_div_two]
  rw [hf]
  refine ⟨rfl, ?_⟩
  simp [Vec3.norm, Vec3.dot]

/-- C10: under the invariant maintained by `rotate_camera` (roll 0, pitch
strictly inside the clamp limit), the horizontally projected forward and right
vectors that `handle_player_move` normalizes are nonzero, so the unguarded
normalize calls never receive a zero-length input. -/
theorem projected_direction_vectors_nonzero :
    ∀ (translation : Vec3) (yaw pitch : ℝ), |pitch| < PITCH_LIMIT →
      (⟨(Transform3.forward ⟨translation, ⟨yaw, pitch, 0⟩⟩).x, 0,
        (Transform3.forward ⟨translation, ⟨yaw, pitch, 0⟩⟩).z⟩ : Vec3) ≠
        Vec3.zero ∧
      (⟨(Transform3.right ⟨translation, ⟨yaw, pitch, 0⟩⟩).x, 0,
        (Transform3.right ⟨translation, ⟨yaw, pitch, 0⟩⟩).z⟩ : Vec3) ≠
        Vec3.zero := by
  intro translation yaw pitch hp
  have hL : PITCH_LIMIT = Real.pi / 2 - 0.01 := rfl
  have hpi := Real.pi_gt_three
  have hbounds := abs_lt.1 hp
  have hcos : 0 < Real.cos pitch := by
    apply Real.cos_pos_of_mem_Ioo
    constructor
    · have : -(Real.pi / 2) < -PITCH_LIMIT := by rw [hL]; linarith
      linarith [hbounds.1]
    · have : PITCH_LIMIT < Real.pi / 2 := by rw [hL]; linarith
      linarith [hbounds.2]
  have hfx : (Transform3.forward ⟨translation, ⟨yaw, pitch, 0⟩⟩).x =
      -(Real.sin yaw * Real.cos pitch) := by
    simp only [Transform3.forward, rotApply, rotY, rotX, rotZ, Real.cos_zero,
      Real.sin_zero]
    ring
  have hfz : (Transform3.forward ⟨translation, ⟨yaw, pitch, 0⟩⟩).z =
      -(Real.cos yaw * Real.cos pitch) := by
    simp only [Transform3.forward, rotApply, rotY, rotX, rotZ, Real.cos_zero,
      Real.sin_zero]
    ring
  have hrx : (Transform3.right ⟨translation, ⟨yaw, pitch, 0⟩⟩).x =
      Real.cos yaw := by
    simp only [Transform3.right, rotApply, rotY, rotX, rotZ, Real.cos_zero,
      Real.sin_zero]
    ring
  have hrz : (Transform3.right ⟨translation, ⟨yaw, pitch, 0⟩⟩).z =
      -(Real.sin yaw) := by
    simp only [Transform3.right, rotApply, rotY, rotX, rotZ, Real.cos_zero,
      Real.sin_zero]
    ring
  have hyaw := Real.sin_sq_add_cos_sq yaw
  constructor
  · intro hzero
    have hx0 := congrArg Vec3.x hzero
    have hz0 := congrArg Vec3.z hzero
    rw [hfx] at hx0
    rw [hfz] at hz0
    simp [Vec3.zero] at hx0 hz0
    rcases hx0 with h | h
    · rcases hz0 with h2 | h2
      · rw [h, h2] at hyaw
        norm_num at hyaw
      · exact absurd h2 hcos.ne'
    · exact absurd h hcos.ne'
  · intro hzero
    have hx0 := congrArg Vec3.x hzero
    have hz0 := congrArg Vec3.z hzero
    rw [hrx] at hx0
    rw [hrz] at hz0
    simp [Vec3.zero] at hx0 hz0
    rw [hx0, hz0] at hyaw
    norm_num at hyaw

/-- Witness for C10: identity orientation (yaw 0, pitch 0, roll 0). -/
theorem projected_direction_vectors_nonzero_witness :
    (⟨(Transform3.forward ⟨Vec3.zero, ⟨0, 0, 0⟩⟩).x, 0,
      (Transform3.forward ⟨Vec3.zero, ⟨0, 0, 0⟩⟩).z⟩ : Vec3) ≠ Vec3.zero ∧
    (⟨(Transform3.right ⟨Vec3.zero, ⟨0, 0, 0⟩⟩).x, 0,
      (Transform3.right ⟨Vec3.zero, ⟨0, 0, 0⟩⟩).z⟩ : Vec3) ≠ Vec3.zero :=
  projected_direction_vectors_nonzero Vec3.zero 0 0
    (by rw [abs_zero]; exact PITCH_LIMIT_pos)

end Playground
